import Mathlib

/-!
Verification development for the qmeausre-jupyter JupyterLab extension.

The repository maintains an in-memory ordered queue of "sweep" entries
(`src/queue/queueStore.ts`), renders the queue to a Python script
(`src/queue/export.ts`), inserts generated code into the active notebook
(`src/components/SweepManager.tsx`), and parses notebook cell sources with a
cached tree-sitter based parser (`src/toc/parser.ts`).

The data model below follows `src/types/queue.ts`.  The queue store and the
exporter sources are not part of the source tree snapshot (only their types,
callers, manual test guide and the design document are), so those two
components are modelled from the specification, as marked in their doc
comments.  The notebook insertion helper and the parser cache are embedded
directly from their sources.
-/

/-- `SweepType` from `src/types/queue.ts`: the closed set of sweep tags. -/
inductive SweepType where
  | sweep0d
  | sweep1d
  | sweep2d
  | simulsweep
  | sweepto
  | gateleakage
deriving DecidableEq, Repr

/-- `SweepCode` from `src/types/index.d.ts`: generated code fragments,
`setup` (object construction) and `start` (statements beginning execution). -/
structure SweepCode where
  setup : String
  start : String
deriving DecidableEq, Repr

/-- `DatabaseConfig` from `src/types/queue.ts`: persistence target. -/
structure DatabaseConfig where
  database : String
  experiment : String
  sample : String
deriving DecidableEq, Repr

/-- `QueueEntry` from `src/types/queue.ts`.  The untyped `params` bag is kept
as an opaque string payload; timestamps are epoch milliseconds. -/
structure QueueEntry where
  id : String
  name : String
  sweepType : SweepType
  code : SweepCode
  params : String
  database : Option DatabaseConfig
  createdAt : Nat
  modifiedAt : Nat
deriving DecidableEq, Repr

/-- `QueueState` from `src/types/queue.ts`. -/
structure QueueState where
  entries : List QueueEntry
  selectedId : Option String
deriving DecidableEq, Repr

/-- JavaScript `Array.prototype.findIndex`: index of the first element
satisfying the predicate. -/
def findIndex (p : α → Bool) : List α → Option Nat
  | [] => none
  | x :: xs => if p x then some 0 else (findIndex p xs).map (· + 1)

/-- Modelled from the spec: `addOrReplace` of `src/queue/queueStore.ts`
(the store implementation is absent from the source snapshot).  If `entries`
contains an element with `entry.id`, replace it at the same index preserving
its original `createdAt`; otherwise append with `createdAt = modifiedAt =
now()`.  The stored element always gets `modifiedAt = now()`.  The wall clock
is passed explicitly as `now`. -/
def addOrReplace (now : Nat) (e : QueueEntry) (s : QueueState) : QueueState :=
  match findIndex (fun x => x.id == e.id) s.entries with
  | some i =>
    let old := s.entries.getD i e
    { s with entries :=
        s.entries.set i { e with createdAt := old.createdAt, modifiedAt := now } }
  | none =>
    { s with entries := s.entries ++ [{ e with createdAt := now, modifiedAt := now }] }

/-- Modelled from the spec: `remove` of `src/queue/queueStore.ts` (absent from
the source snapshot).  Deletes the entry with the given id if present, a
no-op otherwise; clears `selectedId` when the removed id was selected. -/
def removeEntry (id : String) (s : QueueState) : QueueState :=
  match findIndex (fun x => x.id == id) s.entries with
  | none => s
  | some i =>
    { entries := s.entries.eraseIdx i,
      selectedId := if s.selectedId == some id then none else s.selectedId }

/-- Relocation core of `move`: remove the element at `i` and re-insert it at
`j`, interpreted after the removal (JavaScript `splice` semantics, with the
insertion position clamped to the shortened list's length). -/
def moveList (i j : Nat) (l : List α) : List α :=
  match l[i]? with
  | none => l
  | some x => (l.eraseIdx i).insertIdx (min j (l.length - 1)) x

/-- Modelled from the spec: `move` of `src/queue/queueStore.ts` (absent from
the source snapshot).  Indices are JavaScript numbers, modelled as integers;
`fromIndex` must lie in `[0, entries.length)` and `toIndex` in
`[0, entries.length]`, anything else is a silent no-op. -/
def move (fromIndex toIndex : Int) (s : QueueState) : QueueState :=
  let n : Int := s.entries.length
  if 0 ≤ fromIndex ∧ fromIndex < n ∧ 0 ≤ toIndex ∧ toIndex ≤ n then
    { s with entries := moveList fromIndex.toNat toIndex.toNat s.entries }
  else
    s

/-- Modelled from the spec: `clear` of `src/queue/queueStore.ts` (absent from
the source snapshot): empties `entries` and unsets `selectedId`. -/
def clearQueue (_s : QueueState) : QueueState :=
  { entries := [], selectedId := none }

/-! ## Exporter (`src/queue/export.ts`)

The exporter source is absent from the snapshot; the definitions below are
modelled from the specification's output grammar, the design document
(`TODO.md`) and the manual test guide. -/

/-- Lower-case tag of a sweep type, as it appears in `QueueEntry.sweepType`. -/
def sweepTypeName : SweepType → String
  | .sweep0d => "sweep0d"
  | .sweep1d => "sweep1d"
  | .sweep2d => "sweep2d"
  | .simulsweep => "simulsweep"
  | .sweepto => "sweepto"
  | .gateleakage => "gateleakage"

/-- Python constructor name used by the generated setup code for each sweep
type. -/
def sweepCtorName : SweepType → String
  | .sweep0d => "Sweep0D"
  | .sweep1d => "Sweep1D"
  | .sweep2d => "Sweep2D"
  | .simulsweep => "SimulSweep"
  | .sweepto => "Sweep1D"
  | .gateleakage => "GateLeakage"

/-- Modelled from the spec: the fixed import of the queue primitive
(`TODO.md` shows the exact line). -/
def queueImportLine : String :=
  "from measureit.tools.sweep_queue import SweepQueue, DatabaseEntry"

/-- Modelled from the spec: the conditional import emitted for one sweep
type present in the queue. -/
def typeImportLine (t : SweepType) : String :=
  "from measureit.sweep import " ++ sweepCtorName t

/-- Append a sweep type to an accumulator unless already present. -/
def addDistinct (t : SweepType) (acc : List SweepType) : List SweepType :=
  if t ∈ acc then acc else acc ++ [t]

/-- The distinct sweep types of a tag list, in first-occurrence order. -/
def presentTypes (ts : List SweepType) : List SweepType :=
  ts.foldl (fun acc t => addDistinct t acc) []

/-- Modelled from the spec: the positionally-unique renamed identifier
`sweep_<index>_<sweepType>` for the entry at a given queue position. -/
def renamedIdent (i : Nat) (t : SweepType) : String :=
  "sweep_" ++ toString i ++ "_" ++ sweepTypeName t

/-- Python constructor names the sweep-variable detection looks for on the
right-hand side of an assignment (`src/toc/parser.ts` uses the same family for
its own detection). -/
def sweepCtors : List String :=
  ["Sweep0D", "Sweep1D", "Sweep2D", "SimulSweep", "SweepQueue", "GateLeakage"]

/-- Character-list prefix test. -/
def isPrefixChars : List Char → List Char → Bool
  | [], _ => true
  | _ :: _, [] => false
  | a :: as, b :: bs => a = b && isPrefixChars as bs

/-- Does `sub` occur contiguously in the character list? -/
def containsChars (sub : List Char) : List Char → Bool
  | [] => decide (sub = [])
  | c :: cs => isPrefixChars sub (c :: cs) || containsChars sub cs

/-- Substring test on strings (used to state that a field value occurs
verbatim in an emitted line). -/
def strContains (s sub : String) : Bool :=
  containsChars sub.data s.data

/-- Replace every occurrence of `pat` in the character list, scanning left to
right without rescanning replacements; `fuel` bounds the recursion and any
value of at least the input length gives the full replacement. -/
def replaceAux (pat repl : List Char) : Nat → List Char → List Char
  | _, [] => []
  | 0, s => s
  | fuel + 1, c :: cs =>
    if isPrefixChars pat (c :: cs) ∧ pat ≠ [] then
      repl ++ replaceAux pat repl fuel ((c :: cs).drop pat.length)
    else
      c :: replaceAux pat repl fuel cs

/-- JavaScript global string replacement (model of the exporter's identifier
substitution). -/
def strReplaceAll (s pat repl : String) : String :=
  { data := replaceAux pat.data repl.data s.data.length s.data }

/-- Split a character list at the first occurrence of `sep`, if any. -/
def splitFirst (sep : List Char) : List Char → Option (List Char × List Char)
  | [] => none
  | c :: cs =>
    if isPrefixChars sep (c :: cs) ∧ sep ≠ [] then
      some ([], (c :: cs).drop sep.length)
    else
      match splitFirst sep cs with
      | some (l, r) => some (c :: l, r)
      | none => none

/-- Split a character list into its newline-separated lines. -/
def splitLines : List Char → List (List Char)
  | [] => [[]]
  | c :: cs =>
    match splitLines cs with
    | [] => [[]]
    | h :: t => if c = '\n' then [] :: h :: t else (c :: h) :: t

/-- Does this line assign a sweep object (`<name> = <Ctor>(...)`)?  If so,
return the left-hand-side identifier. -/
def lineAssignsSweep (line : List Char) : Option String :=
  match splitFirst " = ".data line with
  | some (lhs, rhs) =>
    if sweepCtors.any (fun c => isPrefixChars (c ++ "(").data rhs) then
      some { data := lhs }
    else none
  | none => none

/-- First hit of an option-valued function over a list. -/
def firstSome (f : α → Option β) : List α → Option β
  | [] => none
  | x :: xs =>
    match f x with
    | some b => some b
    | none => firstSome f xs

/-- Modelled from the spec: detection of "the sweep's generated local
identifier" inside an entry's setup fragment (the test guide's regression
notes say the real exporter uses a regex matching the sweep object
assignment). -/
def detectSweepIdent (setup : String) : Option String :=
  firstSome lineAssignsSweep (splitLines setup.data)

/-- Rename the detected local identifier to `newIdent` inside both of the
entry's own code fragments (and nowhere else). -/
def renameFragments (c : SweepCode) (newIdent : String) : SweepCode :=
  match detectSweepIdent c.setup with
  | some old =>
    { setup := strReplaceAll c.setup old newIdent,
      start := strReplaceAll c.start old newIdent }
  | none => c

/-- A Python string literal holding `s` verbatim. -/
def pyStr (s : String) : String := "\"" ++ s ++ "\""

/-- Modelled from the spec: the persistence-descriptor expression built from
the three `DatabaseConfig` fields (`DatabaseEntry(db, exp, sample)` per
`TODO.md`). -/
def dbDescriptor (db : DatabaseConfig) : String :=
  "DatabaseEntry(" ++ pyStr db.database ++ ", " ++ pyStr db.experiment
    ++ ", " ++ pyStr db.sample ++ ")"

/-- Modelled from the spec: the queue-assembly statement for one entry — with
a persistence descriptor when the entry has a database configuration, with the
descriptor omitted otherwise. -/
def sqAddLine (e : QueueEntry) (ident : String) : String :=
  match e.database with
  | some db => "sq += (" ++ dbDescriptor db ++ ", " ++ ident ++ ")"
  | none => "sq += (" ++ ident ++ ")"

/-- Modelled from the spec: the lines emitted for the entry at position `i`:
the renamed setup block; then, when a database configuration is present, the
queue-assembly line followed by the (deferred) start code; when absent, the
start code immediately after the setup block followed by the queue-assembly
line.  A blank line terminates the block. -/
def exportEntryLines (i : Nat) (e : QueueEntry) : List String :=
  let ident := renamedIdent i e.sweepType
  let code := renameFragments e.code ident
  let startTail := if code.start = "" then [] else [code.start]
  match e.database with
  | some _ => [code.setup, sqAddLine e ident] ++ startTail ++ [""]
  | none => [code.setup] ++ startTail ++ [sqAddLine e ident] ++ [""]

/-- The per-entry blocks of the export, numbering entries from `i`. -/
def exportBlocks : Nat → List QueueEntry → List String
  | _, [] => []
  | i, e :: es => exportEntryLines i e ++ exportBlocks (i + 1) es

/-- Modelled from the spec: the fixed header — queue-primitive import,
conditional per-type imports, queue construction, blank separator. -/
def exportHeaderLines (es : List QueueEntry) : List String :=
  [queueImportLine] ++ (presentTypes (es.map QueueEntry.sweepType)).map typeImportLine
    ++ ["sq = SweepQueue()", ""]

/-- Modelled from the spec: all lines of the exported queue script. -/
def exportSweepQueueLines (es : List QueueEntry) : List String :=
  exportHeaderLines es ++ exportBlocks 0 es ++ ["sq.start()"]

/-- Modelled from the spec: `exportSweepQueue` of `src/queue/export.ts`
(absent from the source snapshot) — the full script text. -/
def exportSweepQueue (es : List QueueEntry) : String :=
  String.intercalate "\n" (exportSweepQueueLines es)

/-- The projection of an entry that the exporter output may depend on: sweep
type, code fragments and database configuration — not the id, display name or
the timestamps. -/
def exportView (e : QueueEntry) : SweepType × String × String × Option DatabaseConfig :=
  (e.sweepType, e.code.setup, e.code.start, e.database)

/-! ## Notebook insertion (`insertCode` in `src/components/SweepManager.tsx`)

Embedded from the source: the host notebook objects are modelled by the
fields `insertCode` reads and writes. -/

/-- A notebook cell as created by `sharedModel.insertCell`. -/
structure Cell where
  cellType : String
  source : String
deriving DecidableEq, Repr

/-- The shared document model: an ordered cell list. -/
structure SharedModel where
  cells : List Cell
deriving DecidableEq, Repr

/-- `notebook.model` — optional in the host API. -/
structure NotebookModel where
  sharedModel : SharedModel
deriving DecidableEq, Repr

/-- The notebook widget content: model, active-cell index (a JavaScript
number, possibly negative) and interaction mode. -/
structure Notebook where
  model : Option NotebookModel
  activeCellIndex : Int
  mode : String
deriving DecidableEq, Repr

/-- The environment `insertCode` sees: `notebookTracker.currentWidget?.content`. -/
structure NotebookEnv where
  currentNotebook : Option Notebook
deriving DecidableEq, Repr

/-- Result of `insertCode`: the alerts shown to the user and the new
environment. -/
structure InsertResult where
  alerts : List String
  env : NotebookEnv
deriving DecidableEq, Repr

/-- `insertCode` from `src/components/SweepManager.tsx`: alerts and aborts
when no notebook or no model is available; otherwise inserts a code cell at
`min(cells.length, max(0, activeCellIndex) + 1)`, makes it active and enters
edit mode.  The function is total: no path throws. -/
def insertCode (code : String) (env : NotebookEnv) : InsertResult :=
  match env.currentNotebook with
  | none => { alerts := ["No active notebook found"], env := env }
  | some nb =>
    match nb.model with
    | none => { alerts := ["No notebook model available"], env := env }
    | some m =>
      let activeIndex : Int := max 0 nb.activeCellIndex
      let insertIndex : Int := min (m.sharedModel.cells.length : Int) (activeIndex + 1)
      let k := insertIndex.toNat
      let newCell : Cell := { cellType := "code", source := code }
      let cells := m.sharedModel.cells.insertIdx k newCell
      let nb2 : Notebook :=
        { model := some { sharedModel := { cells := cells } },
          activeCellIndex := insertIndex,
          mode := "edit" }
      { alerts := [], env := { currentNotebook := some nb2 } }

/-! ## Parser manager and parse cache (`src/toc/parser.ts`)

Embedded from the source.  The tree-sitter library itself is external; a
`Parser` is modelled as the total parsing pipeline it induces (tree-sitter
parse followed by `extractConstants`/`extractSweepCalls`), i.e. a function
from cell source to parsed sweeps.  The `initPromise` field of the real
`ParserManager` only tracks an in-flight `await` and has no observable effect
in this sequential model. -/

/-- `SweepMetrics` from `src/toc/parser.ts`. -/
structure SweepMetrics where
  setParam : Option String := none
  start : Option String := none
  stop : Option String := none
  step : Option String := none
  maxTime : Option String := none
  interDelay : Option String := none
  plotBin : Option String := none
  innerSweep : Option String := none
  outerSweep : Option String := none
  followParams : Option (List String) := none
  xAxisTime : Option String := none
deriving DecidableEq, Repr

/-- `SweepFlags` from `src/toc/parser.ts`. -/
structure SweepFlags where
  bidirectional : Option Bool := none
  continual : Option Bool := none
  plotData : Option Bool := none
  saveData : Option Bool := none
deriving DecidableEq, Repr

/-- `ParsedSweep` from `src/toc/parser.ts`. -/
structure ParsedSweep where
  type : String
  name : String
  metrics : SweepMetrics
  flags : SweepFlags
  complete : Bool
  diagnostics : List String
deriving DecidableEq, Repr

/-- A loaded parser: the parse-and-extract pipeline as a function. -/
structure Parser where
  parse : String → List ParsedSweep

/-- Outcome of one attempted `initializeParser()` run. -/
inductive InitOutcome where
  | ok (p : Parser)
  | fail (msg : String)

/-- The mutable fields of `ParserManager` observable across calls. -/
structure PMState where
  parser : Option Parser
  hasError : Bool

/-- The initial `ParserManager` state. -/
def pmInit : PMState := { parser := none, hasError := false }

/-- `ParserManager.getParser` from `src/toc/parser.ts`, with the
initialization outcome passed as an oracle.  Returns the result, the new
state, and whether an initialization was attempted.  A cached parser is
returned as is; after a failed initialization every call fails immediately
with `ParserInitError` without re-attempting. -/
def getParser (init : InitOutcome) (st : PMState) :
    Except String Parser × PMState × Bool :=
  match st.parser with
  | some p => (.ok p, st, false)
  | none =>
    if st.hasError then
      (.error "Parser initialization previously failed", st, false)
    else
      match init with
      | .ok p => (.ok p, { st with parser := some p }, true)
      | .fail m =>
        (.error ("Failed to load Python grammar: " ++ m),
          { st with hasError := true }, true)

/-- `hashString` from `src/toc/parser.ts`: the 32-bit rolling hash
`hash = (hash << 5) - hash + charCode` with JavaScript `| 0` truncation,
modelled on `Int` with explicit wrapping into `[-2^31, 2^31)`. -/
def toInt32 (x : Int) : Int :=
  let m := x % 4294967296
  if m < 2147483648 then m else m - 4294967296

/-- One step of the rolling hash: `hash = ((hash << 5) - hash + char) & hash`
truncation (`<<` and `&` act on 32-bit values in JavaScript). -/
def hashStep (h : Int) (c : Nat) : Int :=
  toInt32 (toInt32 (h * 32) - h + c)

/-- The hash of a whole source string (character codes folded left to right,
starting from 0).  The real function renders the value in base 36; the cache
key is that rendering, which is injective in the 32-bit value, so the integer
itself serves as the key here. -/
def hashString (s : String) : Int :=
  s.data.foldl (fun h c => hashStep h c.toNat) 0

/-- The `parseCache` map, as an association list keyed by the hash; `set`
prepends, `get` takes the first binding, matching `Map` observably. -/
def ParseCache := List (Int × List ParsedSweep)

/-- `parseCache.get(hash)`. -/
def cacheGet (c : ParseCache) (k : Int) : Option (List ParsedSweep) :=
  match c with
  | [] => none
  | (k₂, v) :: rest => if k₂ = k then some v else cacheGet rest k

/-- The combined parser-feature state: manager plus cache. -/
structure TocState where
  pm : PMState
  cache : ParseCache

/-- The initial parser-feature state: fresh manager, empty cache. -/
def tocInit : TocState := { pm := pmInit, cache := [] }

/-- `parseSweeps` from `src/toc/parser.ts`: checks the cache under the source
hash first; on a miss obtains the parser, parses, caches and returns the
sweeps; when parser initialization has failed it returns the empty list
(without caching).  The last component records whether the parser actually
ran on the source. -/
def parseSweeps (init : InitOutcome) (src : String) (st : TocState) :
    List ParsedSweep × TocState × Bool :=
  let h := hashString src
  match cacheGet st.cache h with
  | some r => (r, st, false)
  | none =>
    match getParser init st.pm with
    | (.ok p, pm2, _) =>
      let sweeps := p.parse src
      (sweeps, { pm := pm2, cache := (h, sweeps) :: st.cache }, true)
    | (.error _, pm2, _) =>
      ([], { st with pm := pm2 }, false)

/-- A sequence of `parseSweeps` calls, returning all results and the final
state. -/
def runParses (init : InitOutcome) : List String → TocState →
    List (List ParsedSweep) × TocState
  | [], st => ([], st)
  | src :: srcs, st =>
    let (r, st2, _) := parseSweeps init src st
    let (rs, st3) := runParses init srcs st2
    (r :: rs, st3)

/-! ## Concrete sample values (used by witnesses) -/

/-- The 1D sample entry of the manual test guide. -/
def sampleEntry1 : QueueEntry :=
  { id := "sweep-1", name := "Test Sweep 1D", sweepType := .sweep1d,
    code := { setup := "set_param = station.test\ns_1D = Sweep1D(set_param, 0, 10, 1)",
              start := "ensure_qt()\ns_1D.start()" },
    params := "", database := none, createdAt := 100, modifiedAt := 100 }

/-- The sample database configuration of the manual test guide. -/
def sampleDb : DatabaseConfig :=
  { database := "MyExperiment.db", experiment := "test_experiment",
    sample := "sample_001" }

/-- A second sample entry with a database configuration. -/
def sampleEntry2 : QueueEntry :=
  { id := "sweep-2", name := "Sweep 1D with DB", sweepType := .sweep1d,
    code := { setup := "s_1D = Sweep1D(set_param, 0, 5, 0.1)",
              start := "s_1D.start()" },
    params := "",
    database := some sampleDb,
    createdAt := 150, modifiedAt := 150 }

/-- A sample queue state holding the two sample entries. -/
def sampleState : QueueState :=
  { entries := [sampleEntry1, sampleEntry2], selectedId := some "sweep-1" }

/-- A sample parser whose pipeline returns one fixed sweep for any source. -/
def sampleParser : Parser :=
  { parse := fun _ =>
      [{ type := "sweep1d", name := "s_1D", metrics := {}, flags := {},
         complete := true, diagnostics := [] }] }

/-- An environment with no active notebook. -/
def emptyEnv : NotebookEnv := { currentNotebook := none }

/-- An environment whose notebook has no model. -/
def modellessEnv : NotebookEnv :=
  { currentNotebook := some { model := none, activeCellIndex := 0, mode := "command" } }

/-- A manager state after a failed initialization. -/
def failedPM : PMState := { parser := none, hasError := true }

/-- A parser-feature state after a failed initialization, with nothing
cached. -/
def failedToc : TocState := { pm := failedPM, cache := [] }

/-- A parser-feature state with a loaded parser and one cached parse. -/
def sampleCachedToc : TocState :=
  { pm := { parser := some sampleParser, hasError := false },
    cache := [(hashString "s_1D = Sweep1D(p, 0, 10, 1)",
               sampleParser.parse "s_1D = Sweep1D(p, 0, 10, 1)")] }

section FindIndexLemmas

theorem findIndex_some_lt (p : α → Bool) :
    ∀ (l : List α) (i : Nat), findIndex p l = some i → i < l.length := by
  intro l
  induction l with
  | nil => intro i h; simp [findIndex] at h
  | cons x xs ih =>
    intro i h
    by_cases hx : p x
    · simp [findIndex, hx] at h
      simp [← h]
    · simp [findIndex, hx] at h
      obtain ⟨j, hj, rfl⟩ := h
      have := ih j hj
      simp only [List.length_cons]
      omega

theorem findIndex_some_sat (p : α → Bool) :
    ∀ (l : List α) (i : Nat), findIndex p l = some i → ∀ (d : α),
      p (l.getD i d) = true := by
  intro l
  induction l with
  | nil => intro i h; simp [findIndex] at h
  | cons x xs ih =>
    intro i h d
    by_cases hx : p x
    · simp [findIndex, hx] at h
      subst h
      simpa using hx
    · simp [findIndex, hx] at h
      obtain ⟨j, hj, rfl⟩ := h
      simpa using ih j hj d

theorem findIndex_none_nosat (p : α → Bool) :
    ∀ (l : List α), findIndex p l = none → ∀ x ∈ l, p x = false := by
  intro l
  induction l with
  | nil => intro _ x hx; simp at hx
  | cons x xs ih =>
    intro h y hy
    by_cases hx : p x
    · simp [findIndex, hx] at h
    · simp [findIndex, hx] at h
      rcases List.mem_cons.mp hy with rfl | hmem
      · simpa using hx
      · exact ih h y hmem

end FindIndexLemmas

section EraseInsertLemmas

/-- A list is a permutation of the erased list with the erased element put in
front. -/
theorem perm_cons_eraseIdx :
    ∀ (l : List α) (i : Nat) (h : i < l.length),
      l.Perm (l.get ⟨i, h⟩ :: l.eraseIdx i) := by
  intro l
  induction l with
  | nil => intro i h; simp at h
  | cons x xs ih =>
    intro i h
    match i with
    | 0 => simp
    | j + 1 =>
      have hj : j < xs.length := by simpa using h
      have hx := ih j hj
      simp only [List.eraseIdx_cons_succ, List.get_cons_succ]
      exact (List.Perm.cons x hx).trans (List.Perm.swap _ _ _)

/-- Reinserting the erased element at its own index restores the list. -/
theorem insertIdx_eraseIdx_self :
    ∀ (l : List α) (i : Nat) (h : i < l.length),
      (l.eraseIdx i).insertIdx i (l.get ⟨i, h⟩) = l := by
  intro l
  induction l with
  | nil => intro i h; simp at h
  | cons x xs ih =>
    intro i h
    match i with
    | 0 => simp
    | j + 1 =>
      have hj : j < xs.length := by simpa using h
      simp only [List.eraseIdx_cons_succ, List.get_cons_succ, List.insertIdx_succ_cons]
      rw [ih j hj]

end EraseInsertLemmas

/-! ## Claims about the queue store -/

/-- C1: `addOrReplace` replaces in place when an entry with the same id
exists — same index, preserved `createdAt`, unchanged length and a
`modifiedAt` that is later-or-equal under a monotone clock — and otherwise
appends the entry with `createdAt = modifiedAt = now()`.  The operation is a
total function, so it never signals an error. -/
theorem C1_addOrReplace_spec (now : Nat) (e : QueueEntry) (s : QueueState) :
    (∀ i, findIndex (fun x => x.id == e.id) s.entries = some i →
      ∃ (hi : i < s.entries.length) (hi2 : i < (addOrReplace now e s).entries.length),
        (addOrReplace now e s).entries
          = s.entries.set i
              { e with createdAt := (s.entries.get ⟨i, hi⟩).createdAt,
                       modifiedAt := now }
        ∧ (addOrReplace now e s).entries.length = s.entries.length
        ∧ ((addOrReplace now e s).entries.get ⟨i, hi2⟩).id = e.id
        ∧ ((addOrReplace now e s).entries.get ⟨i, hi2⟩).createdAt
            = (s.entries.get ⟨i, hi⟩).createdAt
        ∧ ((s.entries.get ⟨i, hi⟩).modifiedAt ≤ now →
            (s.entries.get ⟨i, hi⟩).modifiedAt
              ≤ ((addOrReplace now e s).entries.get ⟨i, hi2⟩).modifiedAt))
    ∧ (findIndex (fun x => x.id == e.id) s.entries = none →
        (addOrReplace now e s).entries
          = s.entries ++ [{ e with createdAt := now, modifiedAt := now }]) := by
  constructor
  · intro i hfind
    have hi : i < s.entries.length := findIndex_some_lt _ _ _ hfind
    have hD : s.entries.getD i e = s.entries.get ⟨i, hi⟩ := by
      simp [List.getD_eq_getElem?_getD, List.getElem?_eq_getElem hi]
    have hentries : (addOrReplace now e s).entries
        = s.entries.set i
            { e with createdAt := (s.entries.get ⟨i, hi⟩).createdAt,
                     modifiedAt := now } := by
      simp only [addOrReplace, hfind, hD]
    have hlen : (addOrReplace now e s).entries.length = s.entries.length := by
      rw [hentries]; simp
    have hi2 : i < (addOrReplace now e s).entries.length := by
      rw [hlen]; exact hi
    refine ⟨hi, hi2, hentries, hlen, ?_, ?_, ?_⟩
    · have : (addOrReplace now e s).entries.get ⟨i, hi2⟩
          = { e with createdAt := (s.entries.get ⟨i, hi⟩).createdAt,
                     modifiedAt := now } := by
        simp [hentries]
      rw [this]
    · have : (addOrReplace now e s).entries.get ⟨i, hi2⟩
          = { e with createdAt := (s.entries.get ⟨i, hi⟩).createdAt,
                     modifiedAt := now } := by
        simp [hentries]
      rw [this]
    · intro hle
      have : (addOrReplace now e s).entries.get ⟨i, hi2⟩
          = { e with createdAt := (s.entries.get ⟨i, hi⟩).createdAt,
                     modifiedAt := now } := by
        simp [hentries]
      rw [this]
      exact hle
  · intro hfind
    simp only [addOrReplace, hfind]

/-- C1 witness: replacing the first sample entry in the sample state keeps
the length and the `createdAt`, as the theorem instantiates there. -/
theorem C1_addOrReplace_witness :
    (addOrReplace 200 { sampleEntry1 with name := "Updated" } sampleState).entries.length
        = sampleState.entries.length
    ∧ (addOrReplace 200 { sampleEntry1 with name := "Updated" } sampleState).entries
        = sampleState.entries.set 0
            { sampleEntry1 with name := "Updated", createdAt := 100, modifiedAt := 200 } := by
  obtain ⟨hi, hi2, hset, hlen, hid, hcr, hmod⟩ :=
    (C1_addOrReplace_spec 200 { sampleEntry1 with name := "Updated" } sampleState).1 0 rfl
  refine ⟨hlen, ?_⟩
  rw [hset]
  rfl

/-- C2: `move i j` with `i` in `[0, n)` and `j` in `[0, n]` yields a
permutation of the same ids (and never throws, being a total function); any
out-of-range `i` or `j` — negative values included — is a silent no-op
leaving the state unchanged; a move to the same position leaves the order
unchanged. -/
theorem C2_move_spec (s : QueueState) (i j : Int) :
    (0 ≤ i → i < (s.entries.length : Int) → 0 ≤ j → j ≤ (s.entries.length : Int) →
      ((move i j s).entries.map QueueEntry.id).Perm (s.entries.map QueueEntry.id)
      ∧ (move i j s).entries.length = s.entries.length
      ∧ (i = j → move i j s = s))
    ∧ (¬(0 ≤ i ∧ i < (s.entries.length : Int) ∧ 0 ≤ j ∧ j ≤ (s.entries.length : Int)) →
        move i j s = s) := by
  constructor
  · intro h0i hin h0j hjn
    have hguard : 0 ≤ i ∧ i < (s.entries.length : Int) ∧ 0 ≤ j ∧ j ≤ (s.entries.length : Int) :=
      ⟨h0i, hin, h0j, hjn⟩
    have hmove : move i j s = { s with entries := moveList i.toNat j.toNat s.entries } := by
      simp only [move, if_pos hguard]
    have hiN : i.toNat < s.entries.length := by omega
    have hx : s.entries[i.toNat]? = some (s.entries.get ⟨i.toNat, hiN⟩) := by
      simp [List.getElem?_eq_getElem hiN]
    have hcore : moveList i.toNat j.toNat s.entries
        = (s.entries.eraseIdx i.toNat).insertIdx
            (min j.toNat (s.entries.length - 1)) (s.entries.get ⟨i.toNat, hiN⟩) := by
      simp only [moveList, hx]
    have herlen : (s.entries.eraseIdx i.toNat).length + 1 = s.entries.length :=
      List.length_eraseIdx_add_one hiN
    have hmin : min j.toNat (s.entries.length - 1) ≤ (s.entries.eraseIdx i.toNat).length := by
      omega
    have hperm : (moveList i.toNat j.toNat s.entries).Perm s.entries := by
      rw [hcore]
      exact (List.perm_insertIdx _ _ hmin).trans (perm_cons_eraseIdx s.entries i.toNat hiN).symm
    refine ⟨?_, ?_, ?_⟩
    · rw [hmove]
      exact List.Perm.map QueueEntry.id hperm
    · rw [hmove]
      exact hperm.length_eq
    · intro hij
      subst hij
      have hminEq : min i.toNat (s.entries.length - 1) = i.toNat := by omega
      have : moveList i.toNat i.toNat s.entries = s.entries := by
        rw [hcore, hminEq]
        exact insertIdx_eraseIdx_self s.entries i.toNat hiN
      rw [hmove, this]
  · intro hguard
    simp only [move, if_neg hguard]

/-- C2 witness: an in-range drop-at-end move on the sample state permutes
the ids, and the out-of-range moves of the test guide leave the state
unchanged. -/
theorem C2_move_witness :
    ((move 0 2 sampleState).entries.map QueueEntry.id).Perm
        (sampleState.entries.map QueueEntry.id)
    ∧ move (-1) 0 sampleState = sampleState
    ∧ move 0 99 sampleState = sampleState
    ∧ move 1 1 sampleState = sampleState := by
  refine ⟨((C2_move_spec sampleState 0 2).1 (by decide) (by decide) (by decide) (by decide)).1,
    (C2_move_spec sampleState (-1) 0).2 (by decide), (C2_move_spec sampleState 0 99).2 (by decide),
    ((C2_move_spec sampleState 1 1).1 (by decide) (by decide) (by decide) (by decide)).2.2 rfl⟩

/-- C3: `remove` with an id matching no entry leaves the whole state
unchanged (and is not an error); with a present id it removes exactly the
(first) entry carrying that id, decreasing the length by one, and clears
`selectedId` exactly when the removed id was selected. -/
theorem C3_remove_spec (id : String) (s : QueueState) :
    ((∀ x ∈ s.entries, x.id ≠ id) → removeEntry id s = s)
    ∧ (∀ i, findIndex (fun x => x.id == id) s.entries = some i →
        ∃ hi : i < s.entries.length,
          (s.entries.get ⟨i, hi⟩).id = id
          ∧ (removeEntry id s).entries = s.entries.eraseIdx i
          ∧ (removeEntry id s).entries.length + 1 = s.entries.length
          ∧ (s.selectedId = some id → (removeEntry id s).selectedId = none)
          ∧ (s.selectedId ≠ some id → (removeEntry id s).selectedId = s.selectedId)) := by
  constructor
  · intro hab
    have hnone : findIndex (fun x => x.id == id) s.entries = none := by
      cases hcase : findIndex (fun x => x.id == id) s.entries with
      | none => rfl
      | some i =>
        have hi : i < s.entries.length := findIndex_some_lt _ _ _ hcase
        have hsat := findIndex_some_sat (fun x => x.id == id) s.entries i hcase
            (s.entries.get ⟨i, hi⟩)
        have hD : s.entries.getD i (s.entries.get ⟨i, hi⟩) = s.entries.get ⟨i, hi⟩ := by
          simp [List.getD_eq_getElem?_getD, List.getElem?_eq_getElem hi]
        rw [hD] at hsat
        have hmem : s.entries.get ⟨i, hi⟩ ∈ s.entries := List.get_mem s.entries i hi
        have : (s.entries.get ⟨i, hi⟩).id = id := by simpa using hsat
        exact absurd this (hab _ hmem)
    simp only [removeEntry, hnone]
  · intro i hfind
    have hi : i < s.entries.length := findIndex_some_lt _ _ _ hfind
    have hsat := findIndex_some_sat (fun x => x.id == id) s.entries i hfind
        (s.entries.get ⟨i, hi⟩)
    have hD : s.entries.getD i (s.entries.get ⟨i, hi⟩) = s.entries.get ⟨i, hi⟩ := by
      simp [List.getD_eq_getElem?_getD, List.getElem?_eq_getElem hi]
    rw [hD] at hsat
    refine ⟨hi, by simpa using hsat, ?_, ?_, ?_, ?_⟩
    · simp only [removeEntry, hfind]
    · simp only [removeEntry, hfind]
      exact List.length_eraseIdx_add_one hi
    · intro hsel
      simp only [removeEntry, hfind, hsel]
      simp
    · intro hsel
      simp only [removeEntry, hfind]
      have : (s.selectedId == some id) = false := by
        simpa using hsel
      simp [this]

/-- C3 witness: removing an absent id leaves the sample state unchanged, and
removing the selected id "sweep-1" drops one entry and clears the
selection. -/
theorem C3_remove_witness :
    removeEntry "nope" sampleState = sampleState
    ∧ (removeEntry "sweep-1" sampleState).entries.length + 1
        = sampleState.entries.length
    ∧ (removeEntry "sweep-1" sampleState).selectedId = none := by
  refine ⟨(C3_remove_spec "nope" sampleState).1 (by decide), ?_, ?_⟩
  · obtain ⟨hi, hid, hent, hlen, hsel, hsel2⟩ :=
      (C3_remove_spec "sweep-1" sampleState).2 0 rfl
    exact hlen
  · obtain ⟨hi, hid, hent, hlen, hsel, hsel2⟩ :=
      (C3_remove_spec "sweep-1" sampleState).2 0 rfl
    exact hsel rfl

/-! ## Claims about the exporter -/

theorem renamedIdent_zero_one_ne (t : SweepType) :
    renamedIdent 0 t ≠ renamedIdent 1 t := by
  cases t <;> decide

theorem sqAddLine_mem_exportEntryLines (i : Nat) (e : QueueEntry) :
    sqAddLine e (renamedIdent i e.sweepType) ∈ exportEntryLines i e := by
  cases hdb : e.database with
  | none =>
    by_cases hs : (renameFragments e.code (renamedIdent i e.sweepType)).start = "" <;>
      simp [exportEntryLines, hdb, hs]
  | some db =>
    by_cases hs : (renameFragments e.code (renamedIdent i e.sweepType)).start = "" <;>
      simp [exportEntryLines, hdb, hs]

theorem renamedSetup_mem_exportEntryLines (i : Nat) (e : QueueEntry) :
    (renameFragments e.code (renamedIdent i e.sweepType)).setup ∈ exportEntryLines i e := by
  cases hdb : e.database <;> simp [exportEntryLines, hdb]

/-- C4: per-entry renaming is positional and local.  For two queued entries
of the same sweep type, the renamed identifiers `sweep_0_<type>` and
`sweep_1_<type>` are distinct, the per-entry blocks are each built from that
entry's own fragments renamed with its own positional identifier, and the two
queue-assembly lines carrying the two renamed identifiers occur in input
order in the output. -/
theorem C4_export_rename_spec (t : SweepType) (e1 e2 : QueueEntry)
    (h1 : e1.sweepType = t) (h2 : e2.sweepType = t) :
    renamedIdent 0 t ≠ renamedIdent 1 t
    ∧ exportBlocks 0 [e1, e2] = exportEntryLines 0 e1 ++ exportEntryLines 1 e2
    ∧ (renameFragments e1.code (renamedIdent 0 t)).setup ∈ exportEntryLines 0 e1
    ∧ (renameFragments e2.code (renamedIdent 1 t)).setup ∈ exportEntryLines 1 e2
    ∧ List.Sublist [sqAddLine e1 (renamedIdent 0 t), sqAddLine e2 (renamedIdent 1 t)]
        (exportSweepQueueLines [e1, e2]) := by
  have m1 := sqAddLine_mem_exportEntryLines 0 e1
  have m2 := sqAddLine_mem_exportEntryLines 1 e2
  have n1 := renamedSetup_mem_exportEntryLines 0 e1
  have n2 := renamedSetup_mem_exportEntryLines 1 e2
  rw [h1] at m1 n1
  rw [h2] at m2 n2
  have s1 : List.Sublist [sqAddLine e1 (renamedIdent 0 t)] (exportEntryLines 0 e1) :=
    List.singleton_sublist.mpr m1
  have s2 : List.Sublist [sqAddLine e2 (renamedIdent 1 t)] (exportEntryLines 1 e2) :=
    List.singleton_sublist.mpr m2
  have hsub : List.Sublist
      ([sqAddLine e1 (renamedIdent 0 t)] ++ [sqAddLine e2 (renamedIdent 1 t)])
      (exportHeaderLines [e1, e2]
        ++ ((exportEntryLines 0 e1 ++ exportEntryLines 1 e2) ++ ["sq.start()"])) :=
    ((s1.append s2).trans (List.sublist_append_left _ _)).trans
      (List.sublist_append_right _ _)
  refine ⟨renamedIdent_zero_one_ne t, ?_, n1, n2, ?_⟩
  · simp [exportBlocks]
  · simpa [exportSweepQueueLines, exportBlocks, List.append_assoc] using hsub

/-- C4 witness: the theorem instantiated at the two 1D sample entries. -/
theorem C4_export_rename_witness :
    renamedIdent 0 .sweep1d ≠ renamedIdent 1 .sweep1d
    ∧ exportBlocks 0 [sampleEntry1, sampleEntry2]
        = exportEntryLines 0 sampleEntry1 ++ exportEntryLines 1 sampleEntry2
    ∧ (renameFragments sampleEntry1.code (renamedIdent 0 .sweep1d)).setup
        ∈ exportEntryLines 0 sampleEntry1
    ∧ (renameFragments sampleEntry2.code (renamedIdent 1 .sweep1d)).setup
        ∈ exportEntryLines 1 sampleEntry2
    ∧ List.Sublist
        [sqAddLine sampleEntry1 (renamedIdent 0 .sweep1d),
         sqAddLine sampleEntry2 (renamedIdent 1 .sweep1d)]
        (exportSweepQueueLines [sampleEntry1, sampleEntry2]) :=
  C4_export_rename_spec .sweep1d sampleEntry1 sampleEntry2 rfl rfl

theorem containsChars_nil (l : List Char) : containsChars [] l = true := by
  cases l <;> simp [containsChars, isPrefixChars]

theorem isPrefixChars_append_self :
    ∀ (b x : List Char), isPrefixChars b (b ++ x) = true := by
  intro b
  induction b with
  | nil => intro x; rfl
  | cons c cs ih => intro x; simp [isPrefixChars, ih]

theorem containsChars_append_middle :
    ∀ (a b x : List Char), containsChars b (a ++ (b ++ x)) = true := by
  intro a
  induction a with
  | nil =>
    intro b x
    cases b with
    | nil => simpa using containsChars_nil x
    | cons c cs =>
      simp only [List.nil_append, List.cons_append, containsChars]
      have := isPrefixChars_append_self (c :: cs) x
      simp only [List.cons_append] at this
      simp [this]
  | cons a0 as ih =>
    intro b x
    simp [containsChars, ih]

theorem dbDescriptor_data (db : DatabaseConfig) :
    (dbDescriptor db).data
      = "DatabaseEntry(".data ++ ("\"".data ++ (db.database.data ++ ("\"".data
        ++ (", ".data ++ ("\"".data ++ (db.experiment.data ++ ("\"".data
        ++ (", ".data ++ ("\"".data ++ (db.sample.data
        ++ ("\"".data ++ ")".data))))))))))) := by
  simp [dbDescriptor, pyStr, String.data_append, List.append_assoc]

/-- C5: per-entry persistence layout.  An entry with a database
configuration gets a queue-assembly line whose persistence descriptor holds
the three fields verbatim, with any deferred start code placed after that
line; an entry without one gets a descriptor-free queue-assembly line with
its start code immediately after its own setup block — so start code never
precedes its object's persistence configuration. -/
theorem C5_export_database_spec (i : Nat) (e : QueueEntry) :
    (∀ db, e.database = some db →
      exportEntryLines i e
        = [(renameFragments e.code (renamedIdent i e.sweepType)).setup,
            "sq += (" ++ dbDescriptor db ++ ", " ++ renamedIdent i e.sweepType ++ ")"]
          ++ (if (renameFragments e.code (renamedIdent i e.sweepType)).start = "" then []
              else [(renameFragments e.code (renamedIdent i e.sweepType)).start])
          ++ [""]
      ∧ strContains (dbDescriptor db) db.database = true
      ∧ strContains (dbDescriptor db) db.experiment = true
      ∧ strContains (dbDescriptor db) db.sample = true)
    ∧ (e.database = none →
      exportEntryLines i e
        = [(renameFragments e.code (renamedIdent i e.sweepType)).setup]
          ++ (if (renameFragments e.code (renamedIdent i e.sweepType)).start = "" then []
              else [(renameFragments e.code (renamedIdent i e.sweepType)).start])
          ++ ["sq += (" ++ renamedIdent i e.sweepType ++ ")", ""]) := by
  constructor
  · intro db hdb
    refine ⟨?_, ?_, ?_, ?_⟩
    · simp [exportEntryLines, sqAddLine, hdb, String.append_assoc]
    · have h := containsChars_append_middle ("DatabaseEntry(".data ++ "\"".data)
        db.database.data
        ("\"".data ++ (", ".data ++ ("\"".data ++ (db.experiment.data ++ ("\"".data
          ++ (", ".data ++ ("\"".data ++ (db.sample.data ++ ("\"".data ++ ")".data)))))))))
      simp only [strContains, dbDescriptor_data]
      simpa [List.append_assoc] using h
    · have h := containsChars_append_middle
        ("DatabaseEntry(".data ++ "\"".data ++ db.database.data ++ "\"".data
          ++ ", ".data ++ "\"".data)
        db.experiment.data
        ("\"".data ++ (", ".data ++ ("\"".data ++ (db.sample.data
          ++ ("\"".data ++ ")".data)))))
      simp only [strContains, dbDescriptor_data]
      simpa [List.append_assoc] using h
    · have h := containsChars_append_middle
        ("DatabaseEntry(".data ++ "\"".data ++ db.database.data ++ "\"".data
          ++ ", ".data ++ "\"".data ++ db.experiment.data ++ "\"".data
          ++ ", ".data ++ "\"".data)
        db.sample.data
        ("\"".data ++ ")".data)
      simp only [strContains, dbDescriptor_data]
      simpa [List.append_assoc] using h
  · intro hdb
    simp [exportEntryLines, sqAddLine, hdb]

/-- C5 witness: the theorem instantiated at the database-carrying second
sample entry and at the database-free first sample entry. -/
theorem C5_export_database_witness :
    (exportEntryLines 1 sampleEntry2
      = [(renameFragments sampleEntry2.code (renamedIdent 1 .sweep1d)).setup,
          "sq += (" ++ dbDescriptor sampleDb
            ++ ", " ++ renamedIdent 1 .sweep1d ++ ")"]
        ++ (if (renameFragments sampleEntry2.code (renamedIdent 1 .sweep1d)).start = "" then []
            else [(renameFragments sampleEntry2.code (renamedIdent 1 .sweep1d)).start])
        ++ [""]
      ∧ strContains (dbDescriptor sampleDb) "MyExperiment.db" = true
      ∧ strContains (dbDescriptor sampleDb) "test_experiment" = true
      ∧ strContains (dbDescriptor sampleDb) "sample_001" = true)
    ∧ exportEntryLines 0 sampleEntry1
      = [(renameFragments sampleEntry1.code (renamedIdent 0 .sweep1d)).setup]
        ++ (if (renameFragments sampleEntry1.code (renamedIdent 0 .sweep1d)).start = "" then []
            else [(renameFragments sampleEntry1.code (renamedIdent 0 .sweep1d)).start])
        ++ ["sq += (" ++ renamedIdent 0 .sweep1d ++ ")", ""] := by
  constructor
  · exact (C5_export_database_spec 1 sampleEntry2).1 sampleDb rfl
  · exact (C5_export_database_spec 0 sampleEntry1).2 rfl

theorem exportEntryLines_view_congr (e1 e2 : QueueEntry)
    (h : exportView e1 = exportView e2) (i : Nat) :
    exportEntryLines i e1 = exportEntryLines i e2 := by
  simp only [exportView, Prod.mk.injEq] at h
  obtain ⟨ht, hsetup, hstart, hdb⟩ := h
  have hc : e1.code = e2.code := by
    have h1 : e1.code = { setup := e1.code.setup, start := e1.code.start } := rfl
    rw [h1, hsetup, hstart]
  simp only [exportEntryLines, sqAddLine, ht, hc, hdb]

theorem exportBlocks_view_congr :
    ∀ (es1 es2 : List QueueEntry) (i : Nat),
      es1.map exportView = es2.map exportView →
      exportBlocks i es1 = exportBlocks i es2 := by
  intro es1
  induction es1 with
  | nil =>
    intro es2 i h
    cases es2 with
    | nil => rfl
    | cons y ys => simp at h
  | cons x xs ih =>
    intro es2 i h
    cases es2 with
    | nil => simp at h
    | cons y ys =>
      simp only [List.map_cons, List.cons.injEq] at h
      obtain ⟨hv, hrest⟩ := h
      simp only [exportBlocks]
      rw [exportEntryLines_view_congr x y hv i, ih ys (i + 1) hrest]

theorem map_sweepType_of_view_eq (es1 es2 : List QueueEntry)
    (h : es1.map exportView = es2.map exportView) :
    es1.map QueueEntry.sweepType = es2.map QueueEntry.sweepType := by
  have h1 : (es1.map exportView).map Prod.fst = (es2.map exportView).map Prod.fst := by
    rw [h]
  simpa [List.map_map, Function.comp_def, exportView] using h1

/-- C6: the exporter is deterministic and clock-independent.  Two entry
lists that agree on sweep type, code fragments and database configuration —
in particular two calls on the very same entries, whatever their ids, names
or timestamps — produce byte-identical output. -/
theorem C6_export_deterministic (es1 es2 : List QueueEntry)
    (h : es1.map exportView = es2.map exportView) :
    exportSweepQueue es1 = exportSweepQueue es2 := by
  unfold exportSweepQueue exportSweepQueueLines exportHeaderLines
  rw [exportBlocks_view_congr es1 es2 0 h, map_sweepType_of_view_eq es1 es2 h]

/-- C6 witness: changing id, name and both timestamps of the sample entry
does not change the exported script. -/
theorem C6_export_deterministic_witness :
    exportSweepQueue [sampleEntry1]
      = exportSweepQueue
          [{ sampleEntry1 with id := "other", name := "Other", params := "q",
                               createdAt := 987, modifiedAt := 988 }] :=
  C6_export_deterministic [sampleEntry1]
    [{ sampleEntry1 with id := "other", name := "Other", params := "q",
                         createdAt := 987, modifiedAt := 988 }] (by decide)

/-- C7: exporting the empty queue yields exactly the fixed header (the queue
primitive import, no per-type imports), the queue construction and the
immediate trailing start statement, with no per-entry blocks. -/
theorem C7_export_empty :
    exportSweepQueueLines []
      = [queueImportLine, "sq = SweepQueue()", "", "sq.start()"]
    ∧ exportSweepQueue []
      = "from measureit.tools.sweep_queue import SweepQueue, DatabaseEntry\nsq = SweepQueue()\n\nsq.start()" :=
  ⟨rfl, rfl⟩

/-! ## Claims about notebook insertion and the parser feature -/

/-- C8: when no active notebook or no notebook model is available, the
code-insertion action reports the condition through exactly one user-visible
alert, performs no insertion and leaves the environment unchanged; being a
total function it never throws. -/
theorem C8_insertCode_aborts_cleanly (code : String) (env : NotebookEnv) :
    (env.currentNotebook = none →
      insertCode code env = { alerts := ["No active notebook found"], env := env })
    ∧ (∀ nb, env.currentNotebook = some nb → nb.model = none →
      insertCode code env = { alerts := ["No notebook model available"], env := env }) := by
  constructor
  · intro h
    simp [insertCode, h]
  · intro nb h hm
    simp [insertCode, h, hm]

/-- C8 witness: the theorem instantiated at an empty environment and at a
model-less notebook. -/
theorem C8_insertCode_witness :
    insertCode "x = 1" emptyEnv
      = { alerts := ["No active notebook found"], env := emptyEnv }
    ∧ insertCode "x = 1" modellessEnv
      = { alerts := ["No notebook model available"], env := modellessEnv } :=
  ⟨(C8_insertCode_aborts_cleanly "x = 1" emptyEnv).1 rfl,
   (C8_insertCode_aborts_cleanly "x = 1" modellessEnv).2
     { model := none, activeCellIndex := 0, mode := "command" } rfl rfl⟩

theorem runParses_failed_state (m : String) :
    ∀ (srcs : List String) (st : TocState),
      st.pm.parser = none → st.pm.hasError = true → st.cache = [] →
      (runParses (.fail m) srcs st).1 = List.replicate srcs.length []
      ∧ (runParses (.fail m) srcs st).2 = st := by
  intro srcs
  induction srcs with
  | nil => intro st _ _ _; exact ⟨rfl, rfl⟩
  | cons s ss ih =>
    intro st hp he hc
    have hone : parseSweeps (.fail m) s st = ([], st, false) := by
      have hmiss : cacheGet st.cache (hashString s) = none := by
        rw [hc]; rfl
      have hget : getParser (.fail m) st.pm
          = (.error "Parser initialization previously failed", st.pm, false) := by
        simp [getParser, hp, he]
      simp [parseSweeps, hmiss, hget]
    obtain ⟨ih1, ih2⟩ := ih st hp he hc
    constructor
    · simp [runParses, hone, ih1, List.replicate]
    · simp [runParses, hone, ih2]

/-- C9: a failed parser initialization is cached — with the error flag set
(and no parser), every `getParser` call fails immediately with the
`ParserInitError` message and does not re-attempt initialization, the first
failing initialization is what sets that flag, and every `parseSweeps` call
on an uncached source degrades to the empty list without running a parser;
consequently a whole run from the initial state under a failing initializer
returns only empty lists. -/
theorem C9_parser_failure_cached (init : InitOutcome) (m : String) :
    (∀ st : PMState, st.parser = none → st.hasError = true →
      getParser init st = (.error "Parser initialization previously failed", st, false))
    ∧ (∀ st : PMState, st.parser = none → st.hasError = false →
      getParser (.fail m) st
        = (.error ("Failed to load Python grammar: " ++ m),
           { st with hasError := true }, true))
    ∧ (∀ (src : String) (st : TocState), st.pm.parser = none → st.pm.hasError = true →
        cacheGet st.cache (hashString src) = none →
        parseSweeps init src st = ([], st, false))
    ∧ (∀ srcs : List String,
        (runParses (.fail m) srcs tocInit).1 = List.replicate srcs.length []) := by
  refine ⟨?_, ?_, ?_, ?_⟩
  · intro st hp he
    simp [getParser, hp, he]
  · intro st hp he
    simp [getParser, hp, he]
  · intro src st hp he hmiss
    have hget : getParser init st.pm
        = (.error "Parser initialization previously failed", st.pm, false) := by
      simp [getParser, hp, he]
    simp [parseSweeps, hmiss, hget]
  · intro srcs
    cases srcs with
    | nil => rfl
    | cons s ss =>
      have hone : parseSweeps (.fail m) s tocInit
          = ([], { pm := { parser := none, hasError := true }, cache := [] }, false) := rfl
      have hrest := runParses_failed_state m ss
        { pm := { parser := none, hasError := true }, cache := [] } rfl rfl rfl
      simp [runParses, hone, hrest.1, List.replicate]

/-- C9 witness: the theorem instantiated at a failed manager state, a fresh
manager, an uncached source in a failed feature state, and a two-source run
under a failing initializer. -/
theorem C9_parser_failure_witness :
    getParser (.ok sampleParser) failedPM
      = (.error "Parser initialization previously failed", failedPM, false)
    ∧ getParser (.fail "no wasm") pmInit
      = (.error ("Failed to load Python grammar: " ++ "no wasm"),
         { pmInit with hasError := true }, true)
    ∧ parseSweeps (.ok sampleParser) "x = 1" failedToc = ([], failedToc, false)
    ∧ (runParses (.fail "no wasm") ["a = 1", "b = 2"] tocInit).1
        = List.replicate 2 [] :=
  ⟨((C9_parser_failure_cached (.ok sampleParser) "no wasm").1 failedPM rfl rfl),
   ((C9_parser_failure_cached (.ok sampleParser) "no wasm").2.1 pmInit rfl rfl),
   ((C9_parser_failure_cached (.ok sampleParser) "no wasm").2.2.1 "x = 1" failedToc
      rfl rfl rfl),
   ((C9_parser_failure_cached (.ok sampleParser) "no wasm").2.2.2 ["a = 1", "b = 2"])⟩

/-- C10: `parseSweeps` memoizes by the 32-bit rolling hash of the source: a
call whose hash is cached returns the cached result with the state untouched
and without running the parser; an uncached call with a working parser
parses, caches under the hash and returns the sweeps; and after such a call
every later call on any source with the same hash — the same text or a
colliding one — returns the first call's result without reparsing. -/
theorem C10_parseSweeps_memoizes :
    (∀ (init : InitOutcome) (t : String) (st : TocState) (r : List ParsedSweep),
      cacheGet st.cache (hashString t) = some r →
      parseSweeps init t st = (r, st, false))
    ∧ (∀ (init : InitOutcome) (s : String) (st : TocState) (p : Parser)
        (pm2 : PMState) (b : Bool),
      getParser init st.pm = (.ok p, pm2, b) →
      cacheGet st.cache (hashString s) = none →
      parseSweeps init s st
        = (p.parse s, { pm := pm2, cache := (hashString s, p.parse s) :: st.cache }, true))
    ∧ (∀ (init init2 : InitOutcome) (s t : String) (st : TocState) (p : Parser)
        (pm2 : PMState) (b : Bool),
      hashString t = hashString s →
      getParser init st.pm = (.ok p, pm2, b) →
      cacheGet st.cache (hashString s) = none →
      parseSweeps init2 t { pm := pm2, cache := (hashString s, p.parse s) :: st.cache }
        = (p.parse s,
           { pm := pm2, cache := (hashString s, p.parse s) :: st.cache }, false)) := by
  refine ⟨?_, ?_, ?_⟩
  · intro init t st r hc
    simp [parseSweeps, hc]
  · intro init s st p pm2 b hget hmiss
    simp [parseSweeps, hmiss, hget]
  · intro init init2 s t st p pm2 b hh hget hmiss
    have hc : cacheGet ((hashString s, p.parse s) :: st.cache) (hashString t)
        = some (p.parse s) := by
      simp [cacheGet, hh]
    simp [parseSweeps, hc]

set_option maxRecDepth 8192 in
/-- C10 witness: a repeated call on the already-cached sample source returns
the cached result without touching the state or the parser. -/
theorem C10_parseSweeps_witness :
    parseSweeps (.fail "no wasm") "s_1D = Sweep1D(p, 0, 10, 1)" sampleCachedToc
      = (sampleParser.parse "s_1D = Sweep1D(p, 0, 10, 1)", sampleCachedToc, false) :=
  C10_parseSweeps_memoizes.1 (.fail "no wasm") "s_1D = Sweep1D(p, 0, 10, 1)"
    sampleCachedToc (sampleParser.parse "s_1D = Sweep1D(p, 0, 10, 1)") (by decide)
